import Mathlib

/-!
Formal model of the ExcaliDash private-vault core.

The definitions below are a shallow embedding of the vault code:
* `src/frontend/src/utils/crypto.ts` (hex codec, key derivation, AES-GCM
  wrappers, password digest),
* `src/frontend/src/context/VaultContext.tsx` (session state machine:
  lock, unlock, setup, changePassword, auto-lock timer),
* the API client wrappers for the vault endpoints (request bodies sent
  to the server).

Byte arrays (`Uint8Array`) are embedded as `List Nat` with values below
256 where that matters.  Platform primitives that are not part of the
repository (Web Crypto PBKDF2 / SHA-256 / AES-GCM, `TextEncoder`,
`btoa`, `JSON.stringify`, the server-side route handlers) are modelled
from the spec; each such definition carries a doc comment saying so.
-/

namespace ExcaliDash

/-! ## Constants (crypto.ts lines 13-16) -/

def PBKDF2_ITERATIONS : Nat := 100000

def SALT_LENGTH : Nat := 16

def IV_LENGTH : Nat := 12

def KEY_LENGTH : Nat := 256

/-! ## Hex codec (crypto.ts `bytesToHex` / `hexToBytes`) -/

/-- Embedding of the JavaScript `b.toString(16)` for a natural number:
most-significant digit first, lowercase, `"0"` for zero. -/
def natToHexChars (n : Nat) : List Char :=
  Nat.toDigits 16 n

/-- Embedding of `.padStart(2, "0")` on the hex digits of one byte. -/
def padStart2 (l : List Char) : List Char :=
  List.replicate (2 - l.length) '0' ++ l

/-- `bytesToHex` (crypto.ts lines 39-43): every byte rendered as two
lowercase hex digits and joined. -/
def bytesToHex (bytes : List Nat) : String :=
  String.mk ((bytes.map (fun b => padStart2 (natToHexChars b))).flatten)

/-- Value of one hex digit as accepted by `parseInt(_, 16)`
(both lowercase and uppercase). -/
def hexVal (c : Char) : Option Nat :=
  if '0' ≤ c ∧ c ≤ '9' then some (c.toNat - '0'.toNat)
  else if 'a' ≤ c ∧ c ≤ 'f' then some (c.toNat - 'a'.toNat + 10)
  else if 'A' ≤ c ∧ c ≤ 'F' then some (c.toNat - 'A'.toNat + 10)
  else none

/-- Embedding of `parseInt(twoChars, 16)` followed by the `Uint8Array`
store: `parseInt` parses the longest valid prefix and yields `NaN` when
the first character is not a hex digit; storing `NaN` into a
`Uint8Array` writes 0. -/
def parseIntHex2 (c1 c2 : Char) : Nat :=
  match hexVal c1 with
  | none => 0
  | some v1 =>
    match hexVal c2 with
    | none => v1
    | some v2 => v1 * 16 + v2

/-- Walk the characters two at a time; a trailing odd character is
dropped, exactly as the `hex.length / 2` loop bound does. -/
def hexPairsToBytes : List Char → List Nat
  | c1 :: c2 :: rest => parseIntHex2 c1 c2 :: hexPairsToBytes rest
  | _ => []

/-- `hexToBytes` (crypto.ts lines 48-54). -/
def hexToBytes (hex : String) : List Nat :=
  hexPairsToBytes hex.data

/-! ## Text codec

`TextEncoder`/`TextDecoder` are platform primitives. -/

/-- Modelled from the spec: `new TextEncoder().encode` — an injective
encoding of a string into bytes (modelled as the code points). -/
def textEncode (s : String) : List Nat :=
  s.data.map Char.toNat

/-- Modelled from the spec: `new TextDecoder().decode`, the inverse of
`textEncode` on encoded data. -/
def textDecode (bytes : List Nat) : String :=
  String.mk (bytes.map Char.ofNat)

/-! ## Password digest (crypto.ts `hashPassword`) -/

/-- Modelled from the spec: `crypto.subtle.digest` with SHA-256 — a
deterministic function of the message alone producing 32 bytes. -/
def sha256 (msg : List Nat) : List Nat :=
  (List.range 32).map (fun i => (msg.foldl (fun a b => a * 31 + b + 1) i) % 256)

/-- `hashPassword` (crypto.ts lines 204-209): hex-encoded SHA-256 digest
of the UTF-8 bytes of the raw password.  It takes no salt. -/
def hashPassword (password : String) : String :=
  bytesToHex (sha256 (textEncode password))

/-! ## Key derivation (crypto.ts `deriveKey`) -/

/-- Modelled from the spec: the bit string produced by
`crypto.subtle.deriveKey` with PBKDF2.  The bits are a deterministic
function of password, salt, iteration count and hash; they are kept
symbolic. -/
structure KeyMaterial where
  password : String
  salt : List Nat
  iterations : Nat
  hash : String
deriving DecidableEq

/-- The key object returned by `crypto.subtle.deriveKey`: algorithm,
length, the extractable attribute, the granted usages and the derived
material. -/
structure CryptoKey where
  algName : String
  algLength : Nat
  extractable : Bool
  usages : List String
  material : KeyMaterial
deriving DecidableEq

/-- `deriveKey` (crypto.ts lines 62-91): PBKDF2 over (password, salt)
with `PBKDF2_ITERATIONS` iterations and SHA-256, producing a
non-extractable AES-GCM key of `KEY_LENGTH` bits whose only usages are
encrypt and decrypt. -/
def deriveKey (password : String) (salt : List Nat) : CryptoKey :=
  { algName := "AES-GCM"
    algLength := KEY_LENGTH
    extractable := false
    usages := ["encrypt", "decrypt"]
    material := ⟨password, salt, PBKDF2_ITERATIONS, "SHA-256"⟩ }

/-! ## Symbolic AES-GCM cipher

`crypto.subtle.encrypt` / `crypto.subtle.decrypt` with AES-GCM are
platform primitives.  They are modelled symbolically: a ciphertext is a
header number that binds the key material and the IV, followed by the
plaintext bytes; decryption recomputes the header from its own key and
IV and fails closed (returns `none`, the single generic authentication
error) on any mismatch. -/

/-- Injective encoding of a byte list into one natural number. -/
def encList (l : List Nat) : Nat :=
  l.foldr (fun a r => Nat.pair a r + 1) 0

/-- Injective encoding of a string into one natural number. -/
def encString (s : String) : Nat :=
  encList (s.data.map Char.toNat)

/-- Injective encoding of derived key material into one natural number. -/
def encKeyMaterial (m : KeyMaterial) : Nat :=
  Nat.pair (encString m.password)
    (Nat.pair (encList m.salt) (Nat.pair m.iterations (encString m.hash)))

/-- Modelled from the spec: `crypto.subtle.encrypt` with AES-GCM — an
authenticated cipher whose ciphertext is bound to the key bits and the
IV. -/
def aesGcmEncrypt (key : CryptoKey) (iv : List Nat) (pt : List Nat) : List Nat :=
  Nat.pair (encKeyMaterial key.material) (encList iv) :: pt

/-- Modelled from the spec: `crypto.subtle.decrypt` with AES-GCM — tag
verification fails closed with one generic error (`none`) whether the
key is wrong, the IV is wrong or the ciphertext is corrupted. -/
def aesGcmDecrypt (key : CryptoKey) (iv : List Nat) (ct : List Nat) :
    Option (List Nat) :=
  match ct with
  | [] => none
  | h :: rest =>
    if h = Nat.pair (encKeyMaterial key.material) (encList iv) then some rest
    else none

/-! ## Base64 transport -/

/-- Modelled from the spec: the base64 transport blob produced by
`btoa(String.fromCharCode(...bytes))`; modelled as an opaque injective
wrapper around the byte list. -/
structure B64 where
  bytes : List Nat
deriving DecidableEq

/-- Modelled from the spec: `btoa` over the bytes. -/
def btoa (bytes : List Nat) : B64 := ⟨bytes⟩

/-- Modelled from the spec: `atob`, recovering the bytes. -/
def atob (s : B64) : List Nat := s.bytes

/-! ## Drawing payload and its JSON serialization -/

/-- The structured drawing payload `{ elements, appState, files }`
(crypto.ts `encryptDrawing` parameter). -/
structure DrawingData where
  elements : List String
  appState : String
  files : String
deriving DecidableEq

/-- Unary length header: `n` ones then a zero. -/
def encLen (n : Nat) : List Char :=
  List.replicate n '1' ++ ['0']

/-- Length-prefixed serialization of one string field. -/
def encStrChars (s : String) : List Char :=
  encLen s.data.length ++ s.data

/-- Modelled from the spec: `JSON.stringify` on the drawing payload —
an injective serialization of `{ elements, appState, files }` into a
string. -/
def jsonStringify (d : DrawingData) : String :=
  String.mk (encLen d.elements.length ++
    ((d.elements.map encStrChars).flatten ++
      (encStrChars d.appState ++ encStrChars d.files)))

/-- Read a unary length header. -/
def readLen : List Char → Option (Nat × List Char)
  | [] => none
  | c :: rest =>
    if c = '0' then some (0, rest)
    else if c = '1' then (readLen rest).map (fun p => (p.1 + 1, p.2))
    else none

/-- Read one length-prefixed string field. -/
def readStr (cs : List Char) : Option (String × List Char) :=
  (readLen cs).bind fun p =>
    if p.1 ≤ p.2.length then some (String.mk (p.2.take p.1), p.2.drop p.1)
    else none

/-- Read a counted list of string fields. -/
def readStrs : Nat → List Char → Option (List String × List Char)
  | 0, cs => some ([], cs)
  | n + 1, cs =>
    (readStr cs).bind fun p =>
      (readStrs n p.2).map (fun q => (p.1 :: q.1, q.2))

/-- Modelled from the spec: `JSON.parse` back into the drawing payload;
fails (`none`, the thrown exception) on input that is not a
serialization. -/
def jsonParse (s : String) : Option DrawingData :=
  (readLen s.data).bind fun p =>
    (readStrs p.1 p.2).bind fun q =>
      (readStr q.2).bind fun r =>
        (readStr r.2).bind fun t =>
          if t.2.isEmpty then some ⟨q.1, r.1, t.1⟩ else none

/-! ## Drawing and string encryption (crypto.ts lines 99-198)

`generateIV` draws 12 random bytes; the randomness is passed in as the
`iv` argument of the embeddings. -/

/-- An encrypted record as stored and transported: base64 ciphertext
plus the IV as a separate hex field. -/
structure EncryptedRecord where
  encryptedData : B64
  iv : String
deriving DecidableEq

/-- `encryptDrawing` (crypto.ts lines 99-118): serialize, encode, seal
under a fresh IV; return base64 ciphertext and the IV hex-encoded
alongside. -/
def encryptDrawing (data : DrawingData) (key : CryptoKey) (iv : List Nat) :
    EncryptedRecord :=
  let plaintext := textEncode (jsonStringify data)
  let ciphertext := aesGcmEncrypt key iv plaintext
  { encryptedData := btoa ciphertext, iv := bytesToHex iv }

/-- `decryptDrawing` (crypto.ts lines 126-144): decode base64 and hex,
open, deserialize; any authentication failure surfaces as `none`. -/
def decryptDrawing (encryptedData : B64) (iv : String) (key : CryptoKey) :
    Option DrawingData :=
  let ciphertext := atob encryptedData
  let ivBytes := hexToBytes iv
  (aesGcmDecrypt key ivBytes ciphertext).bind fun pt =>
    jsonParse (textDecode pt)

/-- `encryptString` (crypto.ts lines 152-174): seal the encoded string
under a fresh IV and prepend the 12 IV bytes to the ciphertext inside
one base64 blob. -/
def encryptString (str : String) (key : CryptoKey) (iv : List Nat) : B64 :=
  let plaintext := textEncode str
  let ciphertext := aesGcmEncrypt key iv plaintext
  btoa (iv ++ ciphertext)

/-- `decryptString` (crypto.ts lines 180-198): split the first
`IV_LENGTH` bytes off the blob as the IV, open the rest. -/
def decryptString (encrypted : B64) (key : CryptoKey) : Option String :=
  let combined := atob encrypted
  let iv := combined.take IV_LENGTH
  let ciphertext := combined.drop IV_LENGTH
  (aesGcmDecrypt key iv ciphertext).map textDecode

/-! ## Vault API types and wire requests (types/index.ts, api client) -/

/-- `VaultVerifyResult` (types/index.ts): server answer to a verify
call. -/
structure VaultVerifyResult where
  success : Bool
  salt : String
deriving DecidableEq

/-- Outcome of one HTTP call: either the server's answer or a
network/server failure (the axios rejection caught by the client). -/
inductive ApiResult (α : Type) where
  | ok (value : α)
  | transportError
deriving DecidableEq

/-- The request bodies the vault client sends to the server, field for
field as built by the api wrappers: `POST /vault/verify` carries the
digest, `POST /vault/setup` carries digest, salt hex and hint, and
`PUT /vault/password` carries only the new digest and new salt hex (the
key objects passed to the wrapper are not part of the body). -/
inductive VaultRequest where
  | verify (passwordHash : String)
  | setup (passwordHash : String) (salt : String) (hint : Option String)
  | changePassword (passwordHash : String) (salt : String)
deriving DecidableEq

/-- Requests emitted by `unlock` (VaultContext.tsx lines 110-136). -/
def unlockRequests (password : String) : List VaultRequest :=
  [.verify (hashPassword password)]

/-- Requests emitted by `setupVault` (VaultContext.tsx lines 139-167);
the fresh random salt is passed in. -/
def setupVaultRequests (password : String) (newSalt : List Nat)
    (hint : Option String) : List VaultRequest :=
  [.setup (hashPassword password) (bytesToHex newSalt) hint]

/-- Requests emitted by `changePassword` (VaultContext.tsx lines
170-202): verify the old digest, then, only on success, send the new
digest and new salt. -/
def changePasswordRequests (oldPassword newPassword : String)
    (verifyResp : ApiResult VaultVerifyResult) (newSalt : List Nat) :
    List VaultRequest :=
  VaultRequest.verify (hashPassword oldPassword) ::
    (match verifyResp with
     | .ok r =>
       if r.success then
         [.changePassword (hashPassword newPassword) (bytesToHex newSalt)]
       else []
     | .transportError => [])

/-! ## Vault session state machine (VaultContext.tsx) -/

/-- Auto-lock timeout in milliseconds, 15 minutes
(VaultContext.tsx line 27). -/
def AUTO_LOCK_TIMEOUT : Nat := 15 * 60 * 1000

/-- The client-side vault session state: the `VaultState` fields that
the claims concern, the session key and salt, and the pending auto-lock
timer (deadline in milliseconds, `none` when disarmed). -/
structure VaultClientState where
  isSetup : Bool
  isUnlocked : Bool
  passwordHint : Option String
  sessionKey : Option CryptoKey
  salt : Option (List Nat)
  autoLockTimer : Option Nat
deriving DecidableEq

/-- `lock` (VaultContext.tsx lines 100-107): drop the session key, mark
locked, clear any pending auto-lock timer. -/
def lock (s : VaultClientState) : VaultClientState :=
  { s with sessionKey := none, isUnlocked := false, autoLockTimer := none }

/-- `resetAutoLockTimer` (VaultContext.tsx lines 43-52): clear any
pending timer; arm a fresh one at `now + AUTO_LOCK_TIMEOUT` only while
unlocked. -/
def resetAutoLockTimer (now : Nat) (s : VaultClientState) : VaultClientState :=
  if s.isUnlocked then { s with autoLockTimer := some (now + AUTO_LOCK_TIMEOUT) }
  else { s with autoLockTimer := none }

/-- Expiry of the armed timer: the `setTimeout` callback invokes `lock`
once the deadline is reached. -/
def autoLockExpire (now : Nat) (s : VaultClientState) : VaultClientState :=
  match s.autoLockTimer with
  | some d => if d ≤ now then lock s else s
  | none => s

/-- `unlock` (VaultContext.tsx lines 110-136), parametrized by the
server's answer to the verify call: on a transport error the `catch`
returns false with the state untouched; on a failed verification it
returns false with the state untouched; on success it derives the key
from the returned salt, stores salt and key, marks unlocked and arms
the auto-lock timer. -/
def unlockStep (password : String) (response : ApiResult VaultVerifyResult)
    (now : Nat) (s : VaultClientState) : Bool × VaultClientState :=
  match response with
  | .transportError => (false, s)
  | .ok result =>
    if !result.success then (false, s)
    else
      let saltBytes := hexToBytes result.salt
      let key := deriveKey password saltBytes
      let s1 := { s with salt := some saltBytes, sessionKey := some key,
                         isUnlocked := true }
      (true, resetAutoLockTimer now s1)

/-! ## Server vault store and the re-key workflow -/

/-- Modelled from the spec: the slow, server-side hash (bcrypt) applied
to the client digest before storage; symbolic and injective. -/
def serverHash (digest : String) : String :=
  String.mk ('#' :: digest.data)

/-- Modelled from the spec: the server's vault record and the encrypted
records it stores (the route handlers are not part of the client
sources).  `vaultHash` is the server-side hash of the client digest,
`vaultSalt` the client salt in hex. -/
structure ServerState where
  vaultHash : String
  vaultSalt : String
  hint : Option String
  records : List EncryptedRecord
deriving DecidableEq

/-- Modelled from the spec: `verifyVaultDigest(digest) -> (success,
salt)` — compare the server-side hash of the digest with the stored
one, return the stored client salt. -/
def verifyVaultDigest (st : ServerState) (digest : String) : VaultVerifyResult :=
  { success := serverHash digest = st.vaultHash, salt := st.vaultSalt }

/-- Modelled from the spec and the api wrapper's own comment: the
`PUT /vault/password` handler updates only the stored hash and salt;
the stored encrypted records are not touched. -/
def updateVaultRecord (st : ServerState) (newHash newSalt : String) :
    ServerState :=
  { st with vaultHash := serverHash newHash, vaultSalt := newSalt }

/-- `changeVaultPassword` api wrapper (api client lines 138-150): the
two key objects are accepted and ignored; the body sent is only the new
digest and new salt. -/
def changeVaultPassword (st : ServerState) (newPasswordHash newSalt : String)
    (_oldKey _newKey : CryptoKey) : ServerState :=
  updateVaultRecord st newPasswordHash newSalt

/-- `changePassword` (VaultContext.tsx lines 170-202) together with the
server effect: verify the old digest, derive the old key, generate a
new salt (passed in) and derive the new key, send the new digest and
salt, and update the client's salt and session key.  No stored record
is decrypted or re-encrypted anywhere in the flow. -/
def changePasswordFlow (oldPassword newPassword : String) (newSalt : List Nat)
    (server : ServerState) (client : VaultClientState) :
    Except String (ServerState × VaultClientState) :=
  let oldPasswordHash := hashPassword oldPassword
  let verifyResult := verifyVaultDigest server oldPasswordHash
  if !verifyResult.success then .error "Invalid current password"
  else
    let oldSalt := hexToBytes verifyResult.salt
    let oldKey := deriveKey oldPassword oldSalt
    let newSaltHex := bytesToHex newSalt
    let newKey := deriveKey newPassword newSalt
    let newPasswordHash := hashPassword newPassword
    let server1 := changeVaultPassword server newPasswordHash newSaltHex oldKey newKey
    .ok (server1,
      { client with salt := some newSalt, sessionKey := some newKey })

deriving instance DecidableEq for Except

/-! ## Concrete re-key scenario

A vault set up with the old password holding one sealed record, used to
evaluate the password-change workflow end to end. -/

def scenarioPayload : DrawingData := ⟨["rect", "ellipse"], "state", "files"⟩

def scenarioIV : List Nat := List.replicate IV_LENGTH 0

def scenarioOldSalt : List Nat := [1, 2]

def scenarioNewSalt : List Nat := [3, 4]

def scenarioOldKey : CryptoKey := deriveKey "Correct-Horse1" scenarioOldSalt

def scenarioRecord : EncryptedRecord :=
  encryptDrawing scenarioPayload scenarioOldKey scenarioIV

/-- The server after setup with the old password: stored server-side
hash of the old digest, old salt in hex, one sealed record. -/
def scenarioServer : ServerState :=
  { vaultHash := serverHash (hashPassword "Correct-Horse1")
    vaultSalt := bytesToHex scenarioOldSalt
    hint := none
    records := [scenarioRecord] }

/-- The client while unlocked with the old password. -/
def scenarioClient : VaultClientState :=
  { isSetup := true
    isUnlocked := true
    passwordHint := none
    sessionKey := some scenarioOldKey
    salt := some scenarioOldSalt
    autoLockTimer := none }

/-- The password-change workflow run on the scenario. -/
def scenarioRotated : Except String (ServerState × VaultClientState) :=
  changePasswordFlow "Correct-Horse1" "New-Password2" scenarioNewSalt
    scenarioServer scenarioClient

/-- The server after the password change. -/
def rotatedServer : ServerState :=
  match scenarioRotated with
  | .ok p => p.1
  | .error _ => scenarioServer

/-- The client after the password change. -/
def rotatedClient : VaultClientState :=
  match scenarioRotated with
  | .ok p => p.2
  | .error _ => scenarioClient

/-- A locked client state, as after a fresh page load of a set-up
vault. -/
def lockedClient : VaultClientState :=
  { isSetup := true
    isUnlocked := false
    passwordHint := none
    sessionKey := none
    salt := none
    autoLockTimer := none }

/-- An unlocked client state with an armed auto-lock timer. -/
def unlockedClient : VaultClientState :=
  { isSetup := true
    isUnlocked := true
    passwordHint := none
    sessionKey := some scenarioOldKey
    salt := some scenarioOldSalt
    autoLockTimer := some AUTO_LOCK_TIMEOUT }

/-! ## Helper lemmas: hex codec -/

set_option maxRecDepth 8000 in
theorem hexByte_spec : ∀ b < 256,
    padStart2 (natToHexChars b) = [Nat.digitChar (b / 16), Nat.digitChar (b % 16)]
    ∧ parseIntHex2 (Nat.digitChar (b / 16)) (Nat.digitChar (b % 16)) = b := by
  decide

theorem bytesToHex_cons (b : Nat) (bs : List Nat) :
    (bytesToHex (b :: bs)).data =
      padStart2 (natToHexChars b) ++ (bytesToHex bs).data := by
  simp [bytesToHex]

theorem hexToBytes_bytesToHex (bytes : List Nat) (h : ∀ x ∈ bytes, x < 256) :
    hexToBytes (bytesToHex bytes) = bytes := by
  induction bytes with
  | nil => rfl
  | cons b bs ih =>
    have hb : b < 256 := h b (List.mem_cons_self b bs)
    have hrest : ∀ x ∈ bs, x < 256 := fun x hx => h x (List.mem_cons_of_mem b hx)
    have hpad := (hexByte_spec b hb).1
    have hparse := (hexByte_spec b hb).2
    show hexPairsToBytes (bytesToHex (b :: bs)).data = b :: bs
    rw [bytesToHex_cons, hpad]
    show parseIntHex2 (Nat.digitChar (b / 16)) (Nat.digitChar (b % 16)) ::
        hexPairsToBytes (bytesToHex bs).data = b :: bs
    rw [hparse]
    exact congrArg (b :: ·) (ih hrest)

theorem bytesToHex_length (bytes : List Nat) (h : ∀ x ∈ bytes, x < 256) :
    (bytesToHex bytes).length = 2 * bytes.length := by
  induction bytes with
  | nil => rfl
  | cons b bs ih =>
    have hb : b < 256 := h b (List.mem_cons_self b bs)
    have hrest : ∀ x ∈ bs, x < 256 := fun x hx => h x (List.mem_cons_of_mem b hx)
    show (bytesToHex (b :: bs)).data.length = 2 * (b :: bs).length
    rw [bytesToHex_cons, (hexByte_spec b hb).1]
    have := ih hrest
    simp only [String.length] at this
    simp [this, List.length_cons]
    ring

/-! ## Helper lemmas: text codec, digest, symbolic encodings -/

theorem mk_data (s : String) : String.mk s.data = s := by
  cases s; rfl

theorem textDecode_textEncode (s : String) : textDecode (textEncode s) = s := by
  unfold textDecode textEncode
  rw [List.map_map]
  have : (Char.ofNat ∘ Char.toNat) = id := funext fun c => Char.ofNat_toNat c
  rw [this, List.map_id, mk_data]

theorem sha256_length (msg : List Nat) : (sha256 msg).length = 32 := by
  simp [sha256]

theorem sha256_bytes (msg : List Nat) : ∀ x ∈ sha256 msg, x < 256 := by
  intro x hx
  simp only [sha256, List.mem_map] at hx
  obtain ⟨i, _, rfl⟩ := hx
  exact Nat.mod_lt _ (by omega)

theorem hashPassword_length (p : String) : (hashPassword p).length = 64 := by
  unfold hashPassword
  rw [bytesToHex_length _ (sha256_bytes _), sha256_length]

theorem encList_nil : encList [] = 0 := rfl

theorem encList_cons (a : Nat) (l : List Nat) :
    encList (a :: l) = Nat.pair a (encList l) + 1 := rfl

theorem encList_inj : Function.Injective encList := by
  intro l1 l2 h
  induction l1 generalizing l2 with
  | nil =>
    cases l2 with
    | nil => rfl
    | cons b u => rw [encList_nil, encList_cons] at h; exact absurd h.symm (by omega)
  | cons a t ih =>
    cases l2 with
    | nil => rw [encList_cons, encList_nil] at h; exact absurd h (by omega)
    | cons b u =>
      rw [encList_cons, encList_cons] at h
      have h2 : Nat.pair a (encList t) = Nat.pair b (encList u) := by omega
      obtain ⟨hab, htu⟩ := Nat.pair_eq_pair.mp h2
      rw [hab, ih htu]

theorem char_toNat_inj : Function.Injective Char.toNat := by
  intro a b h
  have := congrArg Char.ofNat h
  rwa [Char.ofNat_toNat, Char.ofNat_toNat] at this

theorem encString_inj : Function.Injective encString := by
  intro s1 s2 h
  have hdata : s1.data.map Char.toNat = s2.data.map Char.toNat := encList_inj h
  have : s1.data = s2.data := (List.map_injective_iff.mpr char_toNat_inj) hdata
  rw [← mk_data s1, ← mk_data s2, this]

theorem encKeyMaterial_inj : Function.Injective encKeyMaterial := by
  intro m1 m2 h
  unfold encKeyMaterial at h
  obtain ⟨h1, h2⟩ := Nat.pair_eq_pair.mp h
  obtain ⟨h3, h4⟩ := Nat.pair_eq_pair.mp h2
  obtain ⟨h5, h6⟩ := Nat.pair_eq_pair.mp h4
  cases m1; cases m2
  simp only [KeyMaterial.mk.injEq]
  exact ⟨encString_inj h1, encList_inj h3, h5, encString_inj h6⟩

/-! ## Helper lemmas: the authenticated cipher -/

theorem aesGcmDecrypt_encrypt (key : CryptoKey) (iv pt : List Nat) :
    aesGcmDecrypt key iv (aesGcmEncrypt key iv pt) = some pt := by
  simp [aesGcmDecrypt, aesGcmEncrypt]

theorem aesGcmDecrypt_wrongKey (key1 key2 : CryptoKey) (iv1 iv2 pt : List Nat)
    (h : key1.material ≠ key2.material) :
    aesGcmDecrypt key2 iv2 (aesGcmEncrypt key1 iv1 pt) = none := by
  simp only [aesGcmDecrypt, aesGcmEncrypt]
  rw [if_neg]
  intro habs
  exact h (encKeyMaterial_inj (Nat.pair_eq_pair.mp habs).1)

theorem deriveKey_material_ne_password (W1 W2 : String) (S1 S2 : List Nat)
    (h : W1 ≠ W2) :
    (deriveKey W1 S1).material ≠ (deriveKey W2 S2).material := by
  simp only [deriveKey, ne_eq, KeyMaterial.mk.injEq]
  intro habs
  exact h habs.1

theorem deriveKey_material_ne_salt (W1 W2 : String) (S1 S2 : List Nat)
    (h : S1 ≠ S2) :
    (deriveKey W1 S1).material ≠ (deriveKey W2 S2).material := by
  simp only [deriveKey, ne_eq, KeyMaterial.mk.injEq]
  intro habs
  exact h habs.2.1

/-! ## Helper lemmas: payload serialization -/

theorem readLen_encLen (n : Nat) (t : List Char) :
    readLen (encLen n ++ t) = some (n, t) := by
  induction n with
  | zero =>
    show readLen ('0' :: t) = some (0, t)
    rw [readLen, if_pos rfl]
  | succ n ih =>
    have hstep : encLen (n + 1) ++ t = '1' :: (encLen n ++ t) := by
      simp [encLen, List.replicate_succ]
    rw [hstep, readLen, if_neg (by decide), if_pos rfl, ih]
    rfl

theorem readStr_encStr (s : String) (t : List Char) :
    readStr (encStrChars s ++ t) = some (s, t) := by
  unfold encStrChars
  rw [List.append_assoc, readStr, readLen_encLen]
  show (if s.data.length ≤ (s.data ++ t).length then _ else _) = _
  rw [if_pos (by simp)]
  simp only [List.take_left, List.drop_left, Option.some.injEq]

theorem readStrs_enc (l : List String) (t : List Char) :
    readStrs l.length ((l.map encStrChars).flatten ++ t) = some (l, t) := by
  induction l generalizing t with
  | nil => rfl
  | cons a u ih =>
    show readStrs (u.length + 1) (((a :: u).map encStrChars).flatten ++ t) = _
    have hstep : ((a :: u).map encStrChars).flatten ++ t =
        encStrChars a ++ ((u.map encStrChars).flatten ++ t) := by
      simp
    rw [hstep]
    simp only [readStrs, readStr_encStr, Option.some_bind]
    rw [ih]
    rfl

theorem data_mk (l : List Char) : (String.mk l).data = l := rfl

theorem jsonParse_jsonStringify (d : DrawingData) :
    jsonParse (jsonStringify d) = some d := by
  obtain ⟨els, app, fls⟩ := d
  unfold jsonParse jsonStringify
  rw [data_mk, readLen_encLen]
  simp only [Option.some_bind]
  rw [readStrs_enc]
  simp only [Option.some_bind]
  rw [readStr_encStr]
  simp only [Option.some_bind]
  rw [show encStrChars fls = encStrChars fls ++ [] by simp, readStr_encStr]
  simp only [Option.some_bind]
  rfl

/-! ## Claim theorems -/

/-- C10: for every byte array `b` (entries below 256, as in a
`Uint8Array`), `hexToBytes (bytesToHex b)` returns a byte array equal
to `b` — same length, same contents.  Salts and IVs rely on this
round trip through lowercase hex. -/
theorem hex_codec_roundtrip (bytes : List Nat) (h : ∀ x ∈ bytes, x < 256) :
    hexToBytes (bytesToHex bytes) = bytes :=
  hexToBytes_bytesToHex bytes h

/-- Witness for C10 at a concrete byte array. -/
theorem hex_codec_roundtrip_witness :
    (∀ x ∈ [0, 7, 171, 255], x < 256)
    ∧ hexToBytes (bytesToHex [0, 7, 171, 255]) = [0, 7, 171, 255] :=
  ⟨by decide, hex_codec_roundtrip [0, 7, 171, 255] (by decide)⟩

/-- C2: for every structured drawing payload and every plain string,
every password `W` and salt `S`, decrypting the output of encryption
under `deriveKey W S` with that same key returns the payload; the IV is
carried as a separate hex field for drawings and as a 12-byte prefix
inside the base64 blob for strings. -/
theorem seal_open_roundtrip (d : DrawingData) (str W : String)
    (S iv : List Nat) (hlen : iv.length = IV_LENGTH)
    (hbytes : ∀ x ∈ iv, x < 256) :
    decryptDrawing (encryptDrawing d (deriveKey W S) iv).encryptedData
        (encryptDrawing d (deriveKey W S) iv).iv (deriveKey W S) = some d
    ∧ decryptString (encryptString str (deriveKey W S) iv) (deriveKey W S)
        = some str
    ∧ (encryptDrawing d (deriveKey W S) iv).iv = bytesToHex iv
    ∧ (atob (encryptString str (deriveKey W S) iv)).take IV_LENGTH = iv := by
  refine ⟨?_, ?_, rfl, ?_⟩
  · simp only [decryptDrawing, encryptDrawing, atob, btoa]
    rw [hexToBytes_bytesToHex iv hbytes, aesGcmDecrypt_encrypt]
    simp only [Option.some_bind]
    rw [textDecode_textEncode, jsonParse_jsonStringify]
  · simp only [decryptString, encryptString, atob, btoa]
    rw [List.take_left' hlen, List.drop_left' hlen, aesGcmDecrypt_encrypt]
    show some (textDecode (textEncode str)) = some str
    rw [textDecode_textEncode]
  · simp only [encryptString, atob, btoa]
    exact List.take_left' hlen

/-- Witness for C2 at a concrete payload, string, password, salt and
IV. -/
theorem seal_open_roundtrip_witness :
    ((List.replicate IV_LENGTH 0).length = IV_LENGTH
      ∧ ∀ x ∈ List.replicate IV_LENGTH 0, x < 256)
    ∧ decryptDrawing
        (encryptDrawing ⟨["rect"], "app", "fls"⟩ (deriveKey "pw" [1])
          (List.replicate IV_LENGTH 0)).encryptedData
        (encryptDrawing ⟨["rect"], "app", "fls"⟩ (deriveKey "pw" [1])
          (List.replicate IV_LENGTH 0)).iv
        (deriveKey "pw" [1]) = some ⟨["rect"], "app", "fls"⟩
    ∧ decryptString
        (encryptString "name" (deriveKey "pw" [1]) (List.replicate IV_LENGTH 0))
        (deriveKey "pw" [1]) = some "name" :=
  ⟨⟨by decide, by decide⟩,
   (seal_open_roundtrip ⟨["rect"], "app", "fls"⟩ "name" "pw" [1]
      (List.replicate IV_LENGTH 0) (by decide) (by decide)).1,
   (seal_open_roundtrip ⟨["rect"], "app", "fls"⟩ "name" "pw" [1]
      (List.replicate IV_LENGTH 0) (by decide) (by decide)).2.1⟩

/-- C3: decrypting a payload sealed under the key derived from `W1`
with the key derived from a different password `W2` (same salt) always
fails with the single generic authentication failure and never returns
plaintext; the same holds for a stale key derived from a previous
salt. -/
theorem wrong_key_rejection (d : DrawingData) (str W1 W2 : String)
    (S Sprev iv : List Nat) (hW : W1 ≠ W2) (hS : S ≠ Sprev)
    (hlen : iv.length = IV_LENGTH) :
    decryptDrawing (encryptDrawing d (deriveKey W1 S) iv).encryptedData
        (encryptDrawing d (deriveKey W1 S) iv).iv (deriveKey W2 S) = none
    ∧ decryptString (encryptString str (deriveKey W1 S) iv)
        (deriveKey W2 S) = none
    ∧ decryptDrawing (encryptDrawing d (deriveKey W1 S) iv).encryptedData
        (encryptDrawing d (deriveKey W1 S) iv).iv (deriveKey W1 Sprev) = none
    ∧ decryptString (encryptString str (deriveKey W1 S) iv)
        (deriveKey W1 Sprev) = none := by
  have hmatW := deriveKey_material_ne_password W1 W2 S S hW
  have hmatS := deriveKey_material_ne_salt W1 W1 S Sprev hS
  refine ⟨?_, ?_, ?_, ?_⟩
  · simp only [decryptDrawing, encryptDrawing, atob, btoa]
    rw [aesGcmDecrypt_wrongKey _ _ _ _ _ hmatW]
    rfl
  · simp only [decryptString, encryptString, atob, btoa]
    rw [List.take_left' hlen, List.drop_left' hlen,
      aesGcmDecrypt_wrongKey _ _ _ _ _ hmatW]
    rfl
  · simp only [decryptDrawing, encryptDrawing, atob, btoa]
    rw [aesGcmDecrypt_wrongKey _ _ _ _ _ hmatS]
    rfl
  · simp only [decryptString, encryptString, atob, btoa]
    rw [List.take_left' hlen, List.drop_left' hlen,
      aesGcmDecrypt_wrongKey _ _ _ _ _ hmatS]
    rfl

/-- Witness for C3 at concrete distinct passwords and salts. -/
theorem wrong_key_rejection_witness :
    ("a" ≠ "b" ∧ [1] ≠ ([2] : List Nat)
      ∧ (List.replicate IV_LENGTH 0).length = IV_LENGTH)
    ∧ decryptString
        (encryptString "name" (deriveKey "a" [1]) (List.replicate IV_LENGTH 0))
        (deriveKey "b" [1]) = none :=
  ⟨⟨by decide, by decide, by decide⟩,
   (wrong_key_rejection ⟨[], "", ""⟩ "name" "a" "b" [1] [2]
      (List.replicate IV_LENGTH 0) (by decide) (by decide) (by decide)).2.1⟩

/-- C5: key derivation is a pure, deterministic function of
(password, salt): the embedding is a function, two calls with the same
inputs are bit-identical, and the derived key records PBKDF2 with at
least 100,000 iterations, SHA-256 core and a 256-bit AES key. -/
theorem derive_key_deterministic (p : String) (s : List Nat) :
    deriveKey p s = deriveKey p s
    ∧ (deriveKey p s).material = ⟨p, s, PBKDF2_ITERATIONS, "SHA-256"⟩
    ∧ 100000 ≤ PBKDF2_ITERATIONS
    ∧ (deriveKey p s).algLength = 256
    ∧ (deriveKey p s).algName = "AES-GCM" :=
  ⟨rfl, rfl, Nat.le_refl _, rfl, rfl⟩

/-- C8: the key object returned by `deriveKey` is created with its
extractable attribute false and its capabilities exactly encrypt and
decrypt. -/
theorem derive_key_non_exportable (p : String) (s : List Nat) :
    (deriveKey p s).extractable = false
    ∧ (deriveKey p s).usages = ["encrypt", "decrypt"] :=
  ⟨rfl, rfl⟩

/-- C7: `lock` discards the session key, moves to Locked, clears any
pending auto-lock timer, and is idempotent: applying it twice equals
applying it once, from every state — including an already locked
one. -/
theorem lock_idempotent (s : VaultClientState) :
    lock (lock s) = lock s
    ∧ (lock s).sessionKey = none
    ∧ (lock s).isUnlocked = false
    ∧ (lock s).autoLockTimer = none :=
  ⟨rfl, rfl, rfl, rfl⟩

/-- C6: the auto-lock timeout is 15 minutes; while Unlocked every
observed interaction re-arms the timer at `now + AUTO_LOCK_TIMEOUT`;
expiry invokes `lock` exactly as a manual lock would; the timer is
cleared whenever the state leaves Unlocked and is never armed while
locked; a successful unlock arms it on entering Unlocked. -/
theorem auto_lock_behavior (s : VaultClientState) (now d : Nat) :
    AUTO_LOCK_TIMEOUT = 15 * 60 * 1000
    ∧ (s.isUnlocked = true →
        (resetAutoLockTimer now s).autoLockTimer = some (now + AUTO_LOCK_TIMEOUT))
    ∧ (s.isUnlocked = false →
        (resetAutoLockTimer now s).autoLockTimer = none)
    ∧ (s.autoLockTimer = some d → d ≤ now → autoLockExpire now s = lock s)
    ∧ (lock s).autoLockTimer = none
    ∧ (∀ pw r, r.success = true →
        (unlockStep pw (ApiResult.ok r) now s).2.autoLockTimer
            = some (now + AUTO_LOCK_TIMEOUT)
        ∧ (unlockStep pw (ApiResult.ok r) now s).2.isUnlocked = true) := by
  refine ⟨rfl, ?_, ?_, ?_, rfl, ?_⟩
  · intro h; simp [resetAutoLockTimer, h]
  · intro h; simp [resetAutoLockTimer, h]
  · intro hd hle; simp [autoLockExpire, hd, hle]
  · intro pw r hr
    simp [unlockStep, hr, resetAutoLockTimer]

/-- Witness for C6: the armed timer on activity, and expiry behaving as
a manual lock, at a concrete unlocked state. -/
theorem auto_lock_behavior_witness :
    (resetAutoLockTimer 5 unlockedClient).autoLockTimer
        = some (5 + AUTO_LOCK_TIMEOUT)
    ∧ autoLockExpire AUTO_LOCK_TIMEOUT unlockedClient = lock unlockedClient :=
  ⟨(auto_lock_behavior unlockedClient 5 0).2.1 rfl,
   (auto_lock_behavior unlockedClient AUTO_LOCK_TIMEOUT
      AUTO_LOCK_TIMEOUT).2.2.2.1 rfl (Nat.le_refl _)⟩

/-- C4 counterexample: at a concrete locked state, a transport error
during unlock produces exactly the same observable outcome as a failed
password verification — the returned flag is `false` and the state is
unchanged — so the caller cannot distinguish a transport failure from a
wrong password, contrary to the claim. -/
theorem unlock_transport_conflated :
    unlockStep "pw" ApiResult.transportError 0 lockedClient
      = unlockStep "pw" (ApiResult.ok ⟨false, ""⟩) 0 lockedClient
    ∧ (unlockStep "pw" ApiResult.transportError 0 lockedClient).1 = false :=
  ⟨rfl, rfl⟩

/-- C4 (amended): when verification fails, `unlock` returns false and
leaves the state unchanged (still Locked, no session key); a transport
error during unlock also returns false with the state unchanged and is
not distinguished from a wrong password in the returned value. -/
theorem unlock_failure_semantics (pw : String) (r : VaultVerifyResult)
    (now : Nat) (s : VaultClientState) (h : r.success = false) :
    unlockStep pw (ApiResult.ok r) now s = (false, s)
    ∧ unlockStep pw ApiResult.transportError now s = (false, s) := by
  constructor
  · simp [unlockStep, h]
  · rfl

/-- Witness for the amended C4 at a concrete failed verification. -/
theorem unlock_failure_semantics_witness :
    (VaultVerifyResult.mk false "").success = false
    ∧ unlockStep "pw" (ApiResult.ok ⟨false, ""⟩) 0 lockedClient
        = (false, lockedClient) :=
  ⟨rfl, (unlock_failure_semantics "pw" ⟨false, ""⟩ 0 lockedClient rfl).1⟩

/-- C9: the client digest is a fixed-length 64-hex-character (256-bit)
value; unlock, setup and changePassword transmit only this digest
(never the raw password or a key): every request body is determined by
the digest together with the non-secret salt and hint, so two passwords
with equal digests produce identical wire messages. -/
theorem digest_only_transmitted (p p1 p2 oldP1 oldP2 newP1 newP2 : String)
    (newSalt : List Nat) (hint : Option String)
    (resp : ApiResult VaultVerifyResult) :
    (hashPassword p).length = 64
    ∧ unlockRequests p = [VaultRequest.verify (hashPassword p)]
    ∧ setupVaultRequests p newSalt hint
        = [VaultRequest.setup (hashPassword p) (bytesToHex newSalt) hint]
    ∧ (hashPassword p1 = hashPassword p2 →
        unlockRequests p1 = unlockRequests p2)
    ∧ (hashPassword p1 = hashPassword p2 →
        setupVaultRequests p1 newSalt hint = setupVaultRequests p2 newSalt hint)
    ∧ (hashPassword oldP1 = hashPassword oldP2 →
        hashPassword newP1 = hashPassword newP2 →
        changePasswordRequests oldP1 newP1 resp newSalt
          = changePasswordRequests oldP2 newP2 resp newSalt) := by
  refine ⟨hashPassword_length p, rfl, rfl, ?_, ?_, ?_⟩
  · intro h; simp [unlockRequests, h]
  · intro h; simp [setupVaultRequests, h]
  · intro h1 h2; simp [changePasswordRequests, h1, h2]

/-- Witness for C9 at a concrete password. -/
theorem digest_only_transmitted_witness :
    (hashPassword "pw").length = 64
    ∧ unlockRequests "pw" = [VaultRequest.verify (hashPassword "pw")]
    ∧ (hashPassword "pw" = hashPassword "pw" →
        unlockRequests "pw" = unlockRequests "pw") :=
  ⟨(digest_only_transmitted "pw" "pw" "pw" "pw" "pw" "pw" "pw" [1] none
      ApiResult.transportError).1,
   (digest_only_transmitted "pw" "pw" "pw" "pw" "pw" "pw" "pw" [1] none
      ApiResult.transportError).2.1,
   (digest_only_transmitted "pw" "pw" "pw" "pw" "pw" "pw" "pw" [1] none
      ApiResult.transportError).2.2.2.1⟩

/-- C1 (code bug): running the password-change workflow on a vault
holding one sealed record succeeds and updates the verification hash
and salt, but leaves the stored ciphertext untouched: unlocking with
the new password then succeeds, yet the previously sealed record does
not decrypt under the new password's key (while it still decrypts
under the old key).  The claimed decrypt–re-encrypt pass over existing
records does not happen. -/
theorem rekey_orphans_records :
    scenarioRotated = Except.ok (rotatedServer, rotatedClient)
    ∧ rotatedServer.records = [scenarioRecord]
    ∧ rotatedServer.vaultSalt = bytesToHex scenarioNewSalt
    ∧ (unlockStep "New-Password2"
        (ApiResult.ok
          (verifyVaultDigest rotatedServer (hashPassword "New-Password2")))
        0 (lock rotatedClient)).1 = true
    ∧ decryptDrawing scenarioRecord.encryptedData scenarioRecord.iv
        (deriveKey "New-Password2" (hexToBytes rotatedServer.vaultSalt)) = none
    ∧ decryptDrawing scenarioRecord.encryptedData scenarioRecord.iv
        scenarioOldKey = some scenarioPayload := by
  refine ⟨?_, ?_, ?_, ?_, ?_, ?_⟩ <;> decide

end ExcaliDash
